import Mathlib

/-!
# AS5600 position tracker: offset calibration, angle correction, turn counting

A shallow embedding of `Testing/Encoder_testing/Core/Src/as5600.c` (and of the
pointer-argument variant in `Encoder as5600/as5600/Core/Src/as5600.c`).

Machine integers are natural numbers with explicit reduction: `uint16_t`
values are kept modulo `65536`, the `uint32_t` accumulator modulo `2 ^ 32`.

The single floating-point expression of the tracker,
`angle12 * AS5600_RAW_TO_DEGREES`, is exact: `360.0 / 4096 = 45 / 512` is a
binary fraction, and for a 16-bit `angle12` the product `angle12 * 45` is
below `2 ^ 22`, so it fits the 24-bit significand of a `float` and the
multiplication does not round.  The conversion to `uint16_t` truncates towards
zero, so the stored value is the natural-number quotient
`angle12 * 360 / 4096`.
-/

namespace AS5600

/-- Conversion to `uint16_t`. -/
def u16 (n : Nat) : Nat := n % 65536

/-- Conversion to `uint32_t`. -/
def u32 (n : Nat) : Nat := n % 4294967296

/-- The `EncoderStruct` of `as5600.h`; every field is an unsigned machine
integer (`uint16_t`, and `uint8_t` for `cmd` and `filter_mode`). -/
structure EncoderStruct where
  angle12 : Nat
  offset_pos : Nat
  correct_angle : Nat
  zpos12 : Nat
  mpos12 : Nat
  cmd : Nat
  filter_mode : Nat
  No_of_turns : Nat
  total_angle : Nat
  quadrant_Number : Nat
  previous_quadrant_Number : Nat
deriving DecidableEq

/-- A zero-initialised `EncoderStruct`. -/
def EncoderStruct.zero : EncoderStruct :=
  ⟨0, 0, 0, 0, 0, 0, 0, 0, 0, 0, 0⟩

/-- The two bytes that the bus read `HAL_I2C_Mem_Read` leaves in `buf`. -/
structure Buf where
  b0 : Nat
  b1 : Nat
deriving DecidableEq

/-- The word that `AS5600_ReadRawAngle` assembles from the two bytes read:
`((uint16_t)buf[0] << 8) | buf[1]`, all sixteen bits kept. -/
def rawOfBuf (buf : Buf) : Nat :=
  u16 ((u16 buf.b0 <<< 8) ||| buf.b1)

/-- `AS5600_ReadRawAngle`: clears `angle12`, reads two bytes from the bus
(here: receives them as `buf`) and stores the assembled word. -/
def AS5600_ReadRawAngle (buf : Buf) (encoder : EncoderStruct) : EncoderStruct :=
  let encoder := { encoder with angle12 := 0 }
  let raw := rawOfBuf buf
  { encoder with angle12 := raw }

/-- The number of samples `CalibrateOffsetAngle` draws. -/
def samples : Nat := 1000

/-- One iteration of the loop of `CalibrateOffsetAngle`: read, add the sample
to the 32-bit accumulator. -/
def calibrateBody (bus : Nat → Buf) (st : Nat × EncoderStruct) (i : Nat) :
    Nat × EncoderStruct :=
  let encoder := AS5600_ReadRawAngle (bus i) st.2
  let start_position := encoder.angle12
  (u32 (st.1 + start_position), encoder)

/-- `CalibrateOffsetAngle`: the `i`-th read of the loop returns the bytes
`bus i`; the sum of the `samples` words is divided by `samples`. -/
def CalibrateOffsetAngle (bus : Nat → Buf) (encoder : EncoderStruct) : EncoderStruct :=
  let st := (List.range samples).foldl (calibrateBody bus) (0, encoder)
  { st.2 with offset_pos := u16 (st.1 / samples) }

/-- `AS5600_CorrectedAngleRaw`: reads a raw sample and stores the 16-bit
difference `angle12 - offset_pos` in `correct_angle`. -/
def AS5600_CorrectedAngleRaw (buf : Buf) (encoder : EncoderStruct) : EncoderStruct :=
  let encoder := AS5600_ReadRawAngle buf encoder
  let corrected := u16 (encoder.angle12 + 65536 - u16 encoder.offset_pos)
  { encoder with correct_angle := corrected }

/-- The pointer-argument variant of `AS5600_CorrectedAngleRaw` in
`Encoder as5600/as5600/Core/Src/as5600.c`: the value written to
`*correct_angle`. -/
def AS5600_CorrectedAngleRaw_ptr (buf : Buf) (offset_pos : Nat) : Nat :=
  let raw_angle := rawOfBuf buf
  let corrected := u16 (raw_angle + 65536 - u16 offset_pos)
  corrected

/-- The local `deg_angle` of `AS5600_CheckQuadrant`. -/
def deg_angle (angle12 : Nat) : Nat := u16 (angle12 * 360 / 4096)

/-- Lines 255-277 of `AS5600_CheckQuadrant`: four independent tests, each of
which may overwrite `quadrant_Number`. -/
def assignQuadrant (deg : Nat) (encoder : EncoderStruct) : EncoderStruct :=
  let encoder := if 0 ≤ deg ∧ deg ≤ 90 then { encoder with quadrant_Number := 1 } else encoder
  let encoder := if deg > 90 ∧ deg ≤ 180 then { encoder with quadrant_Number := 2 } else encoder
  let encoder := if deg > 180 ∧ deg ≤ 270 then { encoder with quadrant_Number := 3 } else encoder
  let encoder := if deg > 270 ∧ deg < 360 then { encoder with quadrant_Number := 4 } else encoder
  encoder

/-- Lines 280-294 of `AS5600_CheckQuadrant`: on a change of quadrant the turn
counter is incremented (4 to 1) or decremented (1 to 4), both in `uint16_t`,
and the previous quadrant is updated. -/
def updateTurns (encoder : EncoderStruct) : EncoderStruct :=
  if encoder.quadrant_Number ≠ encoder.previous_quadrant_Number then
    let encoder :=
      if encoder.quadrant_Number = 1 ∧ encoder.previous_quadrant_Number = 4 then
        { encoder with No_of_turns := u16 (encoder.No_of_turns + 1) }
      else encoder
    let encoder :=
      if encoder.quadrant_Number = 4 ∧ encoder.previous_quadrant_Number = 1 then
        { encoder with No_of_turns := u16 (encoder.No_of_turns + 65535) }
      else encoder
    { encoder with previous_quadrant_Number := encoder.quadrant_Number }
  else encoder

/-- `AS5600_CheckQuadrant`: the quadrant is assigned from the whole-degree
angle, the turn counter follows the quadrant change, and the total angle is
recomputed in `uint16_t`. -/
def AS5600_CheckQuadrant (encoder : EncoderStruct) : EncoderStruct :=
  let deg := deg_angle encoder.angle12
  let encoder := assignQuadrant deg encoder
  let encoder := updateTurns encoder
  { encoder with total_angle := u16 (encoder.No_of_turns * 360 + deg) }

/-- One tracking step on a sample: the sample is placed in `angle12` (as a
read does) and `AS5600_CheckQuadrant` runs. -/
def step (encoder : EncoderStruct) (angle12 : Nat) : EncoderStruct :=
  AS5600_CheckQuadrant { encoder with angle12 := angle12 }

/-- The quadrant the four tests of `AS5600_CheckQuadrant` leave behind, as a
function of the whole-degree angle and the quadrant held before. -/
def quadrantAfter (deg old : Nat) : Nat :=
  if deg ≤ 90 then 1
  else if deg ≤ 180 then 2
  else if deg ≤ 270 then 3
  else if deg < 360 then 4
  else old

/-- The turn counter `updateTurns` leaves behind, as a function of the current
quadrant, the previous quadrant and the counter held before. -/
def turnsAfter (q p n : Nat) : Nat :=
  if q = 1 ∧ p = 4 then u16 (n + 1)
  else if q = 4 ∧ p = 1 then u16 (n + 65535)
  else n

/-- The angle of a raw sample as an exact rational number of degrees. -/
def theta (angle12 : Nat) : ℚ := (angle12 : ℚ) * 360 / 4096

/-! ## Sample states -/

/-- A tracker at rest in quadrant 1 with `offset_pos = 1`. -/
def sOffsetOne : EncoderStruct := { EncoderStruct.zero with offset_pos := 1 }

/-- A tracker five turns in, last seen in quadrant 4, holding a quadrant-1 sample. -/
def sFourToOne : EncoderStruct :=
  { EncoderStruct.zero with
    angle12 := 57, No_of_turns := 5, quadrant_Number := 4, previous_quadrant_Number := 4 }

/-- A tracker 200 turns in, last seen in quadrant 1, holding the sample 0. -/
def sTwoHundred : EncoderStruct :=
  { EncoderStruct.zero with
    No_of_turns := 200, quadrant_Number := 1, previous_quadrant_Number := 1 }

/-- A tracker with no turns counted, last seen in quadrant 1, holding the
sample 3983 (350 degrees). -/
def sOneToFour : EncoderStruct :=
  { EncoderStruct.zero with
    angle12 := 3983, quadrant_Number := 1, previous_quadrant_Number := 1 }

/-- A bus that answers every read with the bytes 0x0F, 0x8F. -/
def busConst : Nat → Buf := fun _ => ⟨15, 143⟩

/-- The tracker after a first step on the sample 0 from the zero state:
quadrant 1, no turns, total angle 0. -/
def sAfterZero : EncoderStruct := step EncoderStruct.zero 0

/-- A tracker five turns in, otherwise zero. -/
def sFiveTurns : EncoderStruct := { EncoderStruct.zero with No_of_turns := 5 }

/-- Circular distance between two raw samples, in raw units. -/
def circDist (a b : Nat) : Nat := min ((b + 4096 - a) % 4096) ((a + 4096 - b) % 4096)

/-- The short move from `a` to `b` goes in the increasing direction and wraps
from 4095 to 0. -/
def crossesUp (a b : Nat) : Prop := b < a ∧ b + 4096 - a < a - b

/-- The short move from `a` to `b` goes in the decreasing direction and wraps
from 0 to 4095. -/
def crossesDown (a b : Nat) : Prop := a < b ∧ a + 4096 - b < b - a

instance (a b : Nat) : Decidable (crossesUp a b) :=
  inferInstanceAs (Decidable (b < a ∧ b + 4096 - a < a - b))

instance (a b : Nat) : Decidable (crossesDown a b) :=
  inferInstanceAs (Decidable (a < b ∧ a + 4096 - b < b - a))

/-- The corrected angle as the specification words it: `(raw - offset) mod 4096`
in raw units. -/
def correctedMod (raw offset : Nat) : Nat := (raw + 4096 - offset) % 4096

/-- The quadrant the four tests of `AS5600_CheckQuadrant` assign to an angle
given in raw units (for an angle in [0, 4095] one of the tests always fires). -/
def quadrantOf (a : Nat) : Nat := quadrantAfter (deg_angle a) 0

/-- The tracker after `AS5600_CorrectedAngleRaw` read the word 2048 (bytes
0x08, 0x00) with `offset_pos = 2048`: the corrected angle is 0. -/
def sRawHalfOffsetHalf : EncoderStruct :=
  AS5600_CorrectedAngleRaw ⟨8, 0⟩ { EncoderStruct.zero with offset_pos := 2048 }

/-- The tracker after `AS5600_CorrectedAngleRaw` read the word 2048 (bytes
0x08, 0x00) with `offset_pos = 0`: the corrected angle is 2048. -/
def sRawHalfOffsetZero : EncoderStruct :=
  AS5600_CorrectedAngleRaw ⟨8, 0⟩ EncoderStruct.zero

/-! ## Field lemmas for `AS5600_CheckQuadrant` -/

theorem deg_angle_eq (a : Nat) (h : a ≤ 65535) : deg_angle a = a * 360 / 4096 := by
  unfold deg_angle u16
  apply Nat.mod_eq_of_lt
  omega

theorem deg_angle_le (a : Nat) (h : a ≤ 4095) : deg_angle a ≤ 359 := by
  rw [deg_angle_eq a (by omega)]; omega

theorem deg_angle_ge (a : Nat) (h : 4096 ≤ a) (h2 : a ≤ 65535) : 360 ≤ deg_angle a := by
  rw [deg_angle_eq a h2]; omega

theorem assignQuadrant_eq (deg : Nat) (s : EncoderStruct) :
    assignQuadrant deg s = { s with quadrant_Number := quadrantAfter deg s.quadrant_Number } := by
  unfold assignQuadrant quadrantAfter
  by_cases h1 : deg ≤ 90
  · have h2 : ¬ (deg > 90 ∧ deg ≤ 180) := by omega
    have h3 : ¬ (deg > 180 ∧ deg ≤ 270) := by omega
    have h4 : ¬ (deg > 270 ∧ deg < 360) := by omega
    simp [h1, h2, h3, h4]
  · by_cases h2 : deg ≤ 180
    · have h2a : deg > 90 ∧ deg ≤ 180 := by omega
      have h3 : ¬ (deg > 180 ∧ deg ≤ 270) := by omega
      have h4 : ¬ (deg > 270 ∧ deg < 360) := by omega
      simp [h1, h2, h2a, h3, h4]
    · by_cases h3 : deg ≤ 270
      · have h2a : ¬ (deg > 90 ∧ deg ≤ 180) := by omega
        have h3a : deg > 180 ∧ deg ≤ 270 := by omega
        have h4 : ¬ (deg > 270 ∧ deg < 360) := by omega
        simp [h1, h2, h3, h2a, h3a, h4]
      · by_cases h4 : deg < 360
        · have h2a : ¬ (deg > 90 ∧ deg ≤ 180) := by omega
          have h3a : ¬ (deg > 180 ∧ deg ≤ 270) := by omega
          have h4a : deg > 270 ∧ deg < 360 := by omega
          simp [h1, h2, h3, h4, h2a, h3a, h4a]
        · have h2a : ¬ (deg > 90 ∧ deg ≤ 180) := by omega
          have h3a : ¬ (deg > 180 ∧ deg ≤ 270) := by omega
          have h4a : ¬ (deg > 270 ∧ deg < 360) := by omega
          simp [h1, h2, h3, h4, h2a, h3a, h4a]

theorem updateTurns_eq (s : EncoderStruct) :
    updateTurns s =
      { s with
        No_of_turns := turnsAfter s.quadrant_Number s.previous_quadrant_Number s.No_of_turns
        previous_quadrant_Number := s.quadrant_Number } := by
  cases s with
  | mk a o c z m cm f n t q p =>
    unfold updateTurns turnsAfter
    by_cases hqp : q = p
    · subst hqp
      by_cases h1 : q = 1 <;> by_cases h4 : q = 4 <;> simp_all
    · by_cases h1 : q = 1 ∧ p = 4
      · simp [h1, hqp]
      · by_cases h2 : q = 4 ∧ p = 1
        · simp [h2, hqp]
        · simp [h1, h2, hqp]

theorem checkQuadrant_eq (s : EncoderStruct) :
    AS5600_CheckQuadrant s =
      { s with
        quadrant_Number := quadrantAfter (deg_angle s.angle12) s.quadrant_Number
        previous_quadrant_Number := quadrantAfter (deg_angle s.angle12) s.quadrant_Number
        No_of_turns :=
          turnsAfter (quadrantAfter (deg_angle s.angle12) s.quadrant_Number)
            s.previous_quadrant_Number s.No_of_turns
        total_angle :=
          u16 (turnsAfter (quadrantAfter (deg_angle s.angle12) s.quadrant_Number)
            s.previous_quadrant_Number s.No_of_turns * 360 + deg_angle s.angle12) } := by
  unfold AS5600_CheckQuadrant
  simp only [assignQuadrant_eq, updateTurns_eq]

theorem quadrantAfter_range (deg old : Nat) (h : deg ≤ 359) :
    1 ≤ quadrantAfter deg old ∧ quadrantAfter deg old ≤ 4 := by
  unfold quadrantAfter
  split_ifs <;> omega

/-! ## C1: angle correction -/

/-- C1 (evaluation at the failing input): with raw sample 0 (bytes 0, 0) and
offset 1, both in [0, 4095], `AS5600_CorrectedAngleRaw` stores 65535 in
`correct_angle`, in both variants of the function; the value is outside
[0, 4095] and differs from `(0 - 1) mod 4096 = 4095`. -/
theorem c1_corrected_angle_wraps_at_16_bits :
    rawOfBuf ⟨0, 0⟩ = 0 ∧
    (AS5600_CorrectedAngleRaw ⟨0, 0⟩ sOffsetOne).correct_angle = 65535 ∧
    AS5600_CorrectedAngleRaw_ptr ⟨0, 0⟩ 1 = 65535 ∧
    (0 + 4096 - 1) % 4096 = 4095 := by
  decide

/-! ## C2: turn counter transitions -/

/-- C2: for a sample in [0, 4095] and a turn counter strictly between 0 and
65535, the recorded quadrant `q` is one of 1..4 and `AS5600_CheckQuadrant`
adds one to `No_of_turns` when (previous, q) = (4, 1), subtracts one when
(previous, q) = (1, 4), and leaves it unchanged in every other case, whatever
the previous quadrant is. -/
theorem c2_turn_counter_transitions (s : EncoderStruct)
    (ha : s.angle12 ≤ 4095) (hlo : 0 < s.No_of_turns) (hhi : s.No_of_turns < 65535) :
    (1 ≤ (AS5600_CheckQuadrant s).quadrant_Number ∧
      (AS5600_CheckQuadrant s).quadrant_Number ≤ 4) ∧
    (s.previous_quadrant_Number = 4 ∧ (AS5600_CheckQuadrant s).quadrant_Number = 1 →
      (AS5600_CheckQuadrant s).No_of_turns = s.No_of_turns + 1) ∧
    (s.previous_quadrant_Number = 1 ∧ (AS5600_CheckQuadrant s).quadrant_Number = 4 →
      (AS5600_CheckQuadrant s).No_of_turns + 1 = s.No_of_turns) ∧
    (¬ (s.previous_quadrant_Number = 4 ∧ (AS5600_CheckQuadrant s).quadrant_Number = 1) →
      ¬ (s.previous_quadrant_Number = 1 ∧ (AS5600_CheckQuadrant s).quadrant_Number = 4) →
      (AS5600_CheckQuadrant s).No_of_turns = s.No_of_turns) := by
  rw [checkQuadrant_eq]
  simp only []
  have hd := deg_angle_le s.angle12 ha
  refine ⟨quadrantAfter_range _ _ hd, ?_, ?_, ?_⟩
  · rintro ⟨hp, hq⟩
    unfold turnsAfter u16
    rw [if_pos ⟨hq, hp⟩]
    omega
  · rintro ⟨hp, hq⟩
    unfold turnsAfter u16
    rw [if_neg (by omega), if_pos ⟨hq, hp⟩]
    omega
  · intro h1 h2
    unfold turnsAfter
    rw [if_neg (fun h => h1 ⟨h.2, h.1⟩), if_neg (fun h => h2 ⟨h.2, h.1⟩)]

/-- C2 witness: five turns in, a 4 to 1 change gives six turns. -/
theorem c2_turn_counter_transitions_witness :
    (AS5600_CheckQuadrant sFourToOne).No_of_turns = 6 :=
  (c2_turn_counter_transitions sFourToOne (by decide) (by decide) (by decide)).2.1
    ⟨by decide, by decide⟩

/-! ## C3: quadrant boundaries -/

theorem theta_lt_iff (a k : Nat) : theta a < (k : ℚ) ↔ a * 360 < k * 4096 := by
  unfold theta
  rw [div_lt_iff₀ (by norm_num)]
  exact_mod_cast Iff.rfl

theorem le_theta_iff (a k : Nat) : (k : ℚ) ≤ theta a ↔ k * 4096 ≤ a * 360 := by
  unfold theta
  rw [le_div_iff₀ (by norm_num)]
  exact_mod_cast Iff.rfl

/-- C3 (counterexample): the sample 1025 has an exact angle above 90 and at
most 180 degrees, yet the quadrant recorded for it is 1, not 2. -/
theorem c3_counterexample :
    (90 : ℚ) < theta 1025 ∧ theta 1025 ≤ 180 ∧
    (step EncoderStruct.zero 1025).quadrant_Number = 1 ∧
    ¬ ((step EncoderStruct.zero 1025).quadrant_Number = 2 ↔
        ((90 : ℚ) < theta 1025 ∧ theta 1025 ≤ 180)) := by
  have h1 : (90 : ℚ) < theta 1025 := by unfold theta; norm_num
  have h2 : theta 1025 ≤ 180 := by unfold theta; norm_num
  have h3 : (step EncoderStruct.zero 1025).quadrant_Number = 1 := by decide
  refine ⟨h1, h2, h3, ?_⟩
  intro h
  have h4 := h.2 ⟨h1, h2⟩
  rw [h3] at h4
  exact absurd h4 (by decide)

/-- C3 (amended): for a sample in [0, 4095] with exact angle theta, the
quadrant recorded follows the whole-degree truncation of theta: it is 1
exactly when 0 <= theta < 91, 2 exactly when 91 <= theta < 181, 3 exactly when
181 <= theta < 271, and 4 exactly when 271 <= theta < 360. -/
theorem c3_quadrant_of_truncated_degrees (s : EncoderStruct) (ha : s.angle12 ≤ 4095) :
    ((AS5600_CheckQuadrant s).quadrant_Number = 1 ↔
      (0 : ℚ) ≤ theta s.angle12 ∧ theta s.angle12 < (91 : ℚ)) ∧
    ((AS5600_CheckQuadrant s).quadrant_Number = 2 ↔
      (91 : ℚ) ≤ theta s.angle12 ∧ theta s.angle12 < (181 : ℚ)) ∧
    ((AS5600_CheckQuadrant s).quadrant_Number = 3 ↔
      (181 : ℚ) ≤ theta s.angle12 ∧ theta s.angle12 < (271 : ℚ)) ∧
    ((AS5600_CheckQuadrant s).quadrant_Number = 4 ↔
      (271 : ℚ) ≤ theta s.angle12 ∧ theta s.angle12 < (360 : ℚ)) := by
  have l0 := le_theta_iff s.angle12 0
  have l91 := le_theta_iff s.angle12 91
  have l181 := le_theta_iff s.angle12 181
  have l271 := le_theta_iff s.angle12 271
  have u91 := theta_lt_iff s.angle12 91
  have u181 := theta_lt_iff s.angle12 181
  have u271 := theta_lt_iff s.angle12 271
  have u360 := theta_lt_iff s.angle12 360
  simp only [Nat.cast_ofNat, Nat.cast_zero] at l0 l91 l181 l271 u91 u181 u271 u360
  rw [checkQuadrant_eq, l0, l91, l181, l271, u91, u181, u271, u360]
  simp only []
  rw [deg_angle_eq s.angle12 (by omega)]
  unfold quadrantAfter
  refine ⟨?_, ?_, ?_, ?_⟩ <;> split_ifs <;> omega

/-- C3 witness: the sample 1025 (about 90.09 degrees) is recorded in quadrant 1. -/
theorem c3_quadrant_of_truncated_degrees_witness :
    (AS5600_CheckQuadrant { EncoderStruct.zero with angle12 := 1025 }).quadrant_Number = 1 ↔
      (0 : ℚ) ≤ theta 1025 ∧ theta 1025 < (91 : ℚ) :=
  (c3_quadrant_of_truncated_degrees { EncoderStruct.zero with angle12 := 1025 }
    (by decide)).1

/-! ## C4: width of the total angle -/

/-- C4 (counterexample): 200 turns in, processing the sample 0 stores
`total_angle = 6464`, while `No_of_turns * 360 + deg_angle` is 72000. -/
theorem c4_counterexample :
    (AS5600_CheckQuadrant sTwoHundred).No_of_turns = 200 ∧
    (AS5600_CheckQuadrant sTwoHundred).total_angle = 6464 ∧
    (AS5600_CheckQuadrant sTwoHundred).total_angle ≠
      (AS5600_CheckQuadrant sTwoHundred).No_of_turns * 360 + deg_angle sTwoHundred.angle12 := by
  decide

/-- C4 (amended): for a sample in [0, 4095], the stored `total_angle` is
`No_of_turns * 360 + deg_angle` (turn counter after the step) reduced modulo
65536, and it is that sum itself, with no wraparound, whenever the turn counter
after the step is at most 181. -/
theorem c4_total_angle_mod_65536 (s : EncoderStruct) (ha : s.angle12 ≤ 4095) :
    (AS5600_CheckQuadrant s).total_angle =
      ((AS5600_CheckQuadrant s).No_of_turns * 360 + s.angle12 * 360 / 4096) % 65536 ∧
    ((AS5600_CheckQuadrant s).No_of_turns ≤ 181 →
      (AS5600_CheckQuadrant s).total_angle =
        (AS5600_CheckQuadrant s).No_of_turns * 360 + s.angle12 * 360 / 4096) := by
  rw [checkQuadrant_eq]
  simp only []
  rw [deg_angle_eq s.angle12 (by omega)]
  unfold u16
  refine ⟨rfl, fun h => ?_⟩
  apply Nat.mod_eq_of_lt
  omega

/-- C4 witness: on the sample 57 after a 4 to 1 change at five turns, the total
angle is 6 * 360 + 5. -/
theorem c4_total_angle_mod_65536_witness :
    (AS5600_CheckQuadrant sFourToOne).total_angle =
      (AS5600_CheckQuadrant sFourToOne).No_of_turns * 360 + sFourToOne.angle12 * 360 / 4096 :=
  (c4_total_angle_mod_65536 sFourToOne (by decide)).2 (by decide)

/-! ## C5: sign of the turn counter -/

/-- C5 (evaluation at the failing input): from `No_of_turns = 0` and previous
quadrant 1, the quadrant-4 sample 3983 (350 degrees) leaves
`No_of_turns = 65535` and `total_angle = 65526` in the unsigned 16-bit fields. -/
theorem c5_turn_counter_wraps_below_zero :
    sOneToFour.No_of_turns = 0 ∧ sOneToFour.previous_quadrant_Number = 1 ∧
    deg_angle sOneToFour.angle12 = 350 ∧
    (AS5600_CheckQuadrant sOneToFour).quadrant_Number = 4 ∧
    (AS5600_CheckQuadrant sOneToFour).No_of_turns = 65535 ∧
    (AS5600_CheckQuadrant sOneToFour).total_angle = 65526 := by
  decide

/-! ## C6: a repeated sample -/

theorem quadrantAfter_idem (deg old : Nat) :
    quadrantAfter deg (quadrantAfter deg old) = quadrantAfter deg old := by
  unfold quadrantAfter
  split_ifs <;> rfl

theorem turnsAfter_self (q n : Nat) : turnsAfter q q n = n := by
  unfold turnsAfter
  rw [if_neg (by omega), if_neg (by omega)]

theorem step_quadrant (s : EncoderStruct) (a : Nat) :
    (step s a).quadrant_Number = quadrantAfter (deg_angle a) s.quadrant_Number := by
  unfold step; rw [checkQuadrant_eq]

theorem step_previous (s : EncoderStruct) (a : Nat) :
    (step s a).previous_quadrant_Number = quadrantAfter (deg_angle a) s.quadrant_Number := by
  unfold step; rw [checkQuadrant_eq]

theorem step_turns (s : EncoderStruct) (a : Nat) :
    (step s a).No_of_turns =
      turnsAfter (quadrantAfter (deg_angle a) s.quadrant_Number)
        s.previous_quadrant_Number s.No_of_turns := by
  unfold step; rw [checkQuadrant_eq]

theorem step_total (s : EncoderStruct) (a : Nat) :
    (step s a).total_angle = u16 ((step s a).No_of_turns * 360 + deg_angle a) := by
  unfold step; rw [checkQuadrant_eq]

/-- C6: for every tracker state and every sample, a second
`AS5600_CheckQuadrant` step on the same sample leaves `total_angle` and
`No_of_turns` as the first step left them. -/
theorem c6_repeated_sample_idempotent (s : EncoderStruct) (a : Nat) :
    (step (step s a) a).total_angle = (step s a).total_angle ∧
    (step (step s a) a).No_of_turns = (step s a).No_of_turns := by
  have ht : (step (step s a) a).No_of_turns = (step s a).No_of_turns := by
    rw [step_turns (step s a) a, step_quadrant, step_previous, quadrantAfter_idem,
      turnsAfter_self]
  refine ⟨?_, ht⟩
  rw [step_total (step s a) a, ht, ← step_total]

/-! ## C7: calibration on a constant signal -/

theorem calibrateBody_fst (bus : Nat → Buf) (st : Nat × EncoderStruct) (i : Nat) :
    (calibrateBody bus st i).1 = u32 (st.1 + rawOfBuf (bus i)) := rfl

theorem calibrate_fold_const (bus : Nat → Buf) (e : EncoderStruct) (V : Nat)
    (hV : V ≤ 4095) (hbus : ∀ i, i < samples → rawOfBuf (bus i) = V) (k : Nat)
    (hk : k ≤ samples) :
    ((List.range k).foldl (calibrateBody bus) (0, e)).1 = k * V := by
  induction k with
  | zero => simp
  | succ n ih =>
    have hn : n < samples := by omega
    have ih2 := ih (by omega)
    rw [List.range_succ, List.foldl_append, List.foldl_cons, List.foldl_nil]
    rw [calibrateBody_fst, ih2, hbus n hn]
    unfold u32
    have hb : (n + 1) * V ≤ 1000 * 4095 := Nat.mul_le_mul (by unfold samples at hk; omega) hV
    have he : n * V + V = (n + 1) * V := by ring
    rw [he]
    apply Nat.mod_eq_of_lt
    omega

/-- C7: when each of the 1000 reads returns the same word `V` in [0, 4095],
the 32-bit accumulator ends at `1000 * V` without wrapping and
`CalibrateOffsetAngle` stores `offset_pos = V`. -/
theorem c7_calibrate_constant_signal (bus : Nat → Buf) (e : EncoderStruct) (V : Nat)
    (hV : V ≤ 4095) (hbus : ∀ i, i < samples → rawOfBuf (bus i) = V) :
    ((List.range samples).foldl (calibrateBody bus) (0, e)).1 = 1000 * V ∧
    (CalibrateOffsetAngle bus e).offset_pos = V := by
  have hf := calibrate_fold_const bus e V hV hbus samples (le_refl _)
  refine ⟨hf, ?_⟩
  unfold CalibrateOffsetAngle
  simp only []
  rw [hf]
  unfold u16 samples
  rw [Nat.mul_div_cancel_left V (by decide)]
  apply Nat.mod_eq_of_lt
  omega

/-- C7 witness: a bus that answers every read with the bytes 0x0F, 0x8F
(the word 3983) calibrates to the offset 3983. -/
theorem c7_calibrate_constant_signal_witness :
    (CalibrateOffsetAngle busConst EncoderStruct.zero).offset_pos = 3983 :=
  (c7_calibrate_constant_signal busConst EncoderStruct.zero 3983 (by decide)
    (fun _ _ => (by decide : rawOfBuf ⟨15, 143⟩ = 3983))).2

/-! ## C8: samples above 4095 -/

/-- C8 (counterexample): the bytes 0x10, 0x00 read as the word 4096; after a
first step on the sample 0 (total angle 0), the step on 4096 stores
`total_angle = 360`, so the prior total angle is not retained. -/
theorem c8_counterexample :
    rawOfBuf ⟨16, 0⟩ = 4096 ∧
    sAfterZero.total_angle = 0 ∧
    (step sAfterZero 4096).total_angle = 360 ∧
    (step sAfterZero 4096).total_angle ≠ sAfterZero.total_angle := by
  decide

/-- C8 (amended): for a state whose recorded quadrant equals its previous
quadrant (as every step leaves it) and a sample in [4096, 65535],
`AS5600_CheckQuadrant` keeps `No_of_turns` and both quadrant fields, and
overwrites `total_angle` with `No_of_turns * 360 + angle12 * 360 / 4096`
modulo 65536, where the whole-degree angle is at least 360. -/
theorem c8_out_of_range_sample_not_rejected (s : EncoderStruct) (a : Nat)
    (hlo : 4096 ≤ a) (hhi : a ≤ 65535)
    (hq : s.quadrant_Number = s.previous_quadrant_Number) :
    (step s a).No_of_turns = s.No_of_turns ∧
    (step s a).quadrant_Number = s.quadrant_Number ∧
    (step s a).previous_quadrant_Number = s.previous_quadrant_Number ∧
    360 ≤ a * 360 / 4096 ∧
    (step s a).total_angle = (s.No_of_turns * 360 + a * 360 / 4096) % 65536 := by
  have hd := deg_angle_ge a hlo hhi
  have hQ : quadrantAfter (deg_angle a) s.quadrant_Number = s.quadrant_Number := by
    unfold quadrantAfter
    rw [if_neg (by omega), if_neg (by omega), if_neg (by omega), if_neg (by omega)]
  have ht : (step s a).No_of_turns = s.No_of_turns := by
    rw [step_turns, hQ, hq, turnsAfter_self]
  refine ⟨ht, ?_, ?_, ?_, ?_⟩
  · rw [step_quadrant, hQ]
  · rw [step_previous, hQ, hq]
  · rw [deg_angle_eq a hhi] at hd; exact hd
  · rw [step_total, ht, deg_angle_eq a hhi]; rfl

/-- C8 witness: after a first step on the sample 0, the sample 4096 keeps the
turn counter at 0 and stores the total angle 360. -/
theorem c8_out_of_range_sample_not_rejected_witness :
    (step sAfterZero 4096).No_of_turns = sAfterZero.No_of_turns ∧
    (step sAfterZero 4096).total_angle =
      (sAfterZero.No_of_turns * 360 + 4096 * 360 / 4096) % 65536 :=
  ⟨(c8_out_of_range_sample_not_rejected sAfterZero 4096 (by decide) (by decide)
      (by decide)).1,
   (c8_out_of_range_sample_not_rejected sAfterZero 4096 (by decide) (by decide)
      (by decide)).2.2.2.2⟩

/-! ## C9: the sequence quadrant 1, quadrant 4, quadrant 1 -/

/-- C9 (counterexample): from the zero state, the samples 114, 3983, 57
(10, 350, 5 degrees) leave `No_of_turns = 0` and `total_angle = 5` after the
third step, not 1 and 365. -/
theorem c9_counterexample :
    (step EncoderStruct.zero 114).No_of_turns = 0 ∧
    (step (step (step EncoderStruct.zero 114) 3983) 57).No_of_turns = 0 ∧
    (step (step (step EncoderStruct.zero 114) 3983) 57).total_angle = 5 ∧
    (step (step (step EncoderStruct.zero 114) 3983) 57).No_of_turns ≠ 1 ∧
    (step (step (step EncoderStruct.zero 114) 3983) 57).total_angle ≠ 365 := by
  decide

/-- C9 (amended): from the zero state, for every three samples recorded in
quadrant 1, then 4, then 1, the turn counter is 0 after the first step; the
second step (a 1 to 4 change) moves it away from 0 by a decrement of one,
counted modulo 65536; the third step (a 4 to 1 change) increments it by one,
counted modulo 65536, which brings it back to 0; and the final total angle is
the last sample's angle in whole degrees. -/
theorem c9_quadrant_1_4_1_returns_to_zero (a1 a2 a3 : Nat)
    (h1 : (step EncoderStruct.zero a1).quadrant_Number = 1)
    (h2 : (step (step EncoderStruct.zero a1) a2).quadrant_Number = 4)
    (h3 : (step (step (step EncoderStruct.zero a1) a2) a3).quadrant_Number = 1) :
    (step EncoderStruct.zero a1).No_of_turns = 0 ∧
    (step (step EncoderStruct.zero a1) a2).No_of_turns ≠
      (step EncoderStruct.zero a1).No_of_turns ∧
    ((step (step EncoderStruct.zero a1) a2).No_of_turns + 1) % 65536 =
      (step EncoderStruct.zero a1).No_of_turns ∧
    (step (step (step EncoderStruct.zero a1) a2) a3).No_of_turns =
      ((step (step EncoderStruct.zero a1) a2).No_of_turns + 1) % 65536 ∧
    (step (step (step EncoderStruct.zero a1) a2) a3).No_of_turns = 0 ∧
    (step (step (step EncoderStruct.zero a1) a2) a3).total_angle = deg_angle a3 := by
  have p1 : (step EncoderStruct.zero a1).previous_quadrant_Number = 1 := by
    rw [step_previous, ← step_quadrant, h1]
  have p2 : (step (step EncoderStruct.zero a1) a2).previous_quadrant_Number = 4 := by
    rw [step_previous, ← step_quadrant, h2]
  have t1 : (step EncoderStruct.zero a1).No_of_turns = 0 := by
    rw [step_turns, ← step_quadrant, h1]
    decide
  have t2 : (step (step EncoderStruct.zero a1) a2).No_of_turns = 65535 := by
    rw [step_turns, ← step_quadrant, h2, p1, t1]
    decide
  have t3 : (step (step (step EncoderStruct.zero a1) a2) a3).No_of_turns = 0 := by
    rw [step_turns, ← step_quadrant, h3, p2, t2]
    decide
  refine ⟨t1, ?_, ?_, ?_, t3, ?_⟩
  · rw [t1, t2]; decide
  · rw [t1, t2]
  · rw [t3, t2]
  · rw [step_total, t3]
    unfold deg_angle u16
    simp

/-- C9 witness: on the samples 114, 3983, 57 the counter leaves 0 at the second
step, returns to 0 at the third, and the total angle ends at 5. -/
theorem c9_quadrant_1_4_1_returns_to_zero_witness :
    (step EncoderStruct.zero 114).No_of_turns = 0 ∧
    (step (step EncoderStruct.zero 114) 3983).No_of_turns ≠
      (step EncoderStruct.zero 114).No_of_turns ∧
    ((step (step EncoderStruct.zero 114) 3983).No_of_turns + 1) % 65536 =
      (step EncoderStruct.zero 114).No_of_turns ∧
    (step (step (step EncoderStruct.zero 114) 3983) 57).No_of_turns =
      ((step (step EncoderStruct.zero 114) 3983).No_of_turns + 1) % 65536 ∧
    (step (step (step EncoderStruct.zero 114) 3983) 57).No_of_turns = 0 ∧
    (step (step (step EncoderStruct.zero 114) 3983) 57).total_angle = deg_angle 57 :=
  c9_quadrant_1_4_1_returns_to_zero 114 3983 57 (by decide) (by decide) (by decide)

/-! ## C10: single-step movements below a quarter turn -/

/-- C10 (counterexample): the samples 0 and 3073 are 1023 raw units apart and
the short move from 0 to 3073 wraps downwards, yet 3073 is recorded in
quadrant 3 and the turn counter (5, not at a limit) is left unchanged. -/
theorem c10_counterexample :
    circDist 0 3073 < 1024 ∧ crossesDown 0 3073 ∧
    (step sFiveTurns 0).No_of_turns = 5 ∧
    (step (step sFiveTurns 0) 3073).quadrant_Number = 3 ∧
    (step (step sFiveTurns 0) 3073).No_of_turns = 5 ∧
    ¬ ((step (step sFiveTurns 0) 3073).No_of_turns + 1 = (step sFiveTurns 0).No_of_turns ↔
        crossesDown 0 3073) := by
  decide

theorem quadrantAfter_one_iff (a old : Nat) (h : a ≤ 4095) :
    quadrantAfter (a * 360 / 4096) old = 1 ↔ a ≤ 1035 := by
  unfold quadrantAfter
  split_ifs <;> omega

theorem quadrantAfter_four_iff (a old : Nat) (h : a ≤ 4095) :
    quadrantAfter (a * 360 / 4096) old = 4 ↔ 3084 ≤ a := by
  unfold quadrantAfter
  split_ifs <;> omega

theorem circDist_cases (a b : Nat) (ha : a ≤ 4095) (hb : b ≤ 4095) :
    (a ≤ b ∧ circDist a b = min (b - a) (a + 4096 - b) ∧ (a = b ∨ a + 4096 - b ≤ 4095)) ∨
    (b < a ∧ circDist a b = min (b + 4096 - a) (a - b)) := by
  unfold circDist
  rcases Nat.lt_or_ge b a with h | h
  · right
    refine ⟨h, ?_⟩
    rw [Nat.mod_eq_of_lt (by omega : b + 4096 - a < 4096),
      show a + 4096 - b = (a - b) + 4096 by omega, Nat.add_mod_right,
      Nat.mod_eq_of_lt (by omega : a - b < 4096)]
  · left
    refine ⟨h, ?_, by omega⟩
    rcases Nat.eq_or_lt_of_le h with e | l
    · subst e
      simp
    · rw [show b + 4096 - a = (b - a) + 4096 by omega, Nat.add_mod_right,
        Nat.mod_eq_of_lt (by omega : b - a < 4096),
        Nat.mod_eq_of_lt (by omega : a + 4096 - b < 4096)]

/-- C10 (amended): for samples `a`, `b` in [0, 4095] at circular distance
strictly below 1013 raw units (about 89 degrees), from a state in which `a`
was the last sample processed and the turn counter is strictly between 0 and
65535, processing `b` adds one to `No_of_turns` exactly when the short move
wraps from 4095 to 0 upwards, subtracts one exactly when it wraps downwards,
and leaves it unchanged exactly when it does not wrap. -/
theorem c10_turn_count_reliable_below_1013 (s : EncoderStruct) (a b : Nat)
    (ha : a ≤ 4095) (hb : b ≤ 4095) (hd : circDist a b < 1013)
    (hlo : 0 < (step s a).No_of_turns) (hhi : (step s a).No_of_turns < 65535) :
    ((step (step s a) b).No_of_turns = (step s a).No_of_turns + 1 ↔ crossesUp a b) ∧
    ((step (step s a) b).No_of_turns + 1 = (step s a).No_of_turns ↔ crossesDown a b) ∧
    ((step (step s a) b).No_of_turns = (step s a).No_of_turns ↔
      ¬ crossesUp a b ∧ ¬ crossesDown a b) := by
  rw [step_turns (step s a) b, step_previous s a, step_quadrant s a]
  generalize (step s a).No_of_turns = n at hlo hhi ⊢
  rw [deg_angle_eq a (by omega), deg_angle_eq b (by omega)]
  unfold turnsAfter
  simp only [quadrantAfter_one_iff b _ hb, quadrantAfter_four_iff b _ hb,
    quadrantAfter_one_iff a _ ha, quadrantAfter_four_iff a _ ha]
  unfold crossesUp crossesDown u16
  rcases circDist_cases a b ha hb with ⟨hab, hc, hx⟩ | ⟨hab, hc⟩
  · rw [hc] at hd
    refine ⟨?_, ?_, ?_⟩ <;> split_ifs <;> omega
  · rw [hc] at hd
    refine ⟨?_, ?_, ?_⟩ <;> split_ifs <;> omega

/-- C10 witness: at five turns, the move from 4090 to 3 (9 raw units upwards
across the wrap) counts one turn. -/
theorem c10_turn_count_reliable_below_1013_witness :
    (step (step sFiveTurns 4090) 3).No_of_turns = (step sFiveTurns 4090).No_of_turns + 1 :=
  (c10_turn_count_reliable_below_1013 sFiveTurns 4090 3 (by decide) (by decide) (by decide)
    (by decide) (by decide)).1.2 (by decide)

/-! ## C11: the angle the quadrant is taken from -/

theorem quadrantAfter_old_irrelevant (deg old1 old2 : Nat) (h : deg ≤ 359) :
    quadrantAfter deg old1 = quadrantAfter deg old2 := by
  unfold quadrantAfter
  split_ifs <;> first | rfl | omega

/-- C11 (counterexample): two states produced by `AS5600_CorrectedAngleRaw`
hold the same raw sample 2048 with the offsets 2048 and 0; their corrected
angles 0 and 2048 lie in the quadrants 1 and 2, yet
`AS5600_CheckQuadrant` records quadrant 2 for both, which for the first state
is not the quadrant of its corrected angle. -/
theorem c11_counterexample :
    (sRawHalfOffsetHalf.angle12 = 2048 ∧ sRawHalfOffsetHalf.offset_pos = 2048 ∧
      sRawHalfOffsetHalf.correct_angle = correctedMod 2048 2048) ∧
    (sRawHalfOffsetZero.angle12 = 2048 ∧ sRawHalfOffsetZero.offset_pos = 0 ∧
      sRawHalfOffsetZero.correct_angle = correctedMod 2048 0) ∧
    quadrantOf (correctedMod 2048 2048) = 1 ∧
    quadrantOf (correctedMod 2048 0) = 2 ∧
    (AS5600_CheckQuadrant sRawHalfOffsetHalf).quadrant_Number = 2 ∧
    (AS5600_CheckQuadrant sRawHalfOffsetZero).quadrant_Number = 2 ∧
    (AS5600_CheckQuadrant sRawHalfOffsetHalf).quadrant_Number ≠
      quadrantOf (correctedMod sRawHalfOffsetHalf.angle12 sRawHalfOffsetHalf.offset_pos) := by
  decide

/-- C11 (amended): the quadrant is computed from the raw reading: for every
state with `angle12` in [0, 4095] the quadrant recorded by
`AS5600_CheckQuadrant` is the quadrant of `angle12`, whatever `offset_pos` and
`correct_angle` hold, so every other state with the same raw sample gets the
same quadrant number. -/
theorem c11_quadrant_from_raw_sample (s t : EncoderStruct) (ha : s.angle12 ≤ 4095)
    (hst : t.angle12 = s.angle12) :
    (AS5600_CheckQuadrant s).quadrant_Number = quadrantOf s.angle12 ∧
    (AS5600_CheckQuadrant t).quadrant_Number = (AS5600_CheckQuadrant s).quadrant_Number := by
  have hd := deg_angle_le s.angle12 ha
  have hs : (AS5600_CheckQuadrant s).quadrant_Number = quadrantOf s.angle12 := by
    rw [checkQuadrant_eq]
    exact quadrantAfter_old_irrelevant _ _ _ hd
  have ht : (AS5600_CheckQuadrant t).quadrant_Number = quadrantOf s.angle12 := by
    rw [checkQuadrant_eq]
    simp only [hst]
    exact quadrantAfter_old_irrelevant _ _ _ hd
  exact ⟨hs, ht.trans hs.symm⟩

/-- C11 witness: the raw sample 2048 is recorded in the same quadrant with the
offset 2048 as with the offset 0. -/
theorem c11_quadrant_from_raw_sample_witness :
    (AS5600_CheckQuadrant sRawHalfOffsetZero).quadrant_Number =
      (AS5600_CheckQuadrant sRawHalfOffsetHalf).quadrant_Number :=
  (c11_quadrant_from_raw_sample sRawHalfOffsetHalf sRawHalfOffsetZero (by decide)
    (by decide)).2

end AS5600
